import Mathlib

/-!
Shallow embedding of the ai-note transcription/subtitle pipeline
(`backend/services/whisper_service.py`, `backend/utils/file_utils.py`,
`backend/config.py`) and proofs of the specified properties.

Python floats are idealized as exact rationals (`ℚ`); Python `//`, `%` on
nonnegative floats are floor division and floor remainder, and `int(x)`
truncates toward zero, which on nonnegative values is the floor.
-/

namespace AiNote

set_option maxRecDepth 10000

/-! ### Time-code formatting (`_seconds_to_srt_time`, `_seconds_to_vtt_time`) -/

/-- Python `f"{n:02d}"` for a nonnegative integer: zero-pad to two digits. -/
def pad2 (n : Nat) : String :=
  if n < 10 then ("0" ++ Nat.repr n) else Nat.repr n

/-- Python `f"{n:03d}"` for a nonnegative integer: zero-pad to three digits. -/
def pad3 (n : Nat) : String :=
  if n < 10 then ("00" ++ Nat.repr n)
  else if n < 100 then ("0" ++ Nat.repr n)
  else Nat.repr n

/-- Embeds `_seconds_to_srt_time`: `hours = int(seconds // 3600)`,
`minutes = int((seconds % 3600) // 60)`, `secs = int(seconds % 60)`,
`millisecs = int((seconds % 1) * 1000)`, rendered `HH:MM:SS,mmm`. -/
def seconds_to_srt_time (seconds : ℚ) : String :=
  let hours := (⌊seconds / 3600⌋).toNat
  let minutes := (⌊(seconds - 3600 * (⌊seconds / 3600⌋ : ℚ)) / 60⌋).toNat
  let secs := (⌊seconds - 60 * (⌊seconds / 60⌋ : ℚ)⌋).toNat
  let millisecs := (⌊(seconds - (⌊seconds⌋ : ℚ)) * 1000⌋).toNat
  pad2 hours ++ ":" ++ pad2 minutes ++ ":" ++ pad2 secs ++ "," ++ pad3 millisecs

/-- Embeds `_seconds_to_vtt_time`: same fields as the SRT converter but with a
period before the milliseconds: `HH:MM:SS.mmm`. -/
def seconds_to_vtt_time (seconds : ℚ) : String :=
  let hours := (⌊seconds / 3600⌋).toNat
  let minutes := (⌊(seconds - 3600 * (⌊seconds / 3600⌋ : ℚ)) / 60⌋).toNat
  let secs := (⌊seconds - 60 * (⌊seconds / 60⌋ : ℚ)⌋).toNat
  let millisecs := (⌊(seconds - (⌊seconds⌋ : ℚ)) * 1000⌋).toNat
  pad2 hours ++ ":" ++ pad2 minutes ++ ":" ++ pad2 secs ++ "." ++ pad3 millisecs

/-- Value of a decimal digit character. -/
def digitVal (c : Char) : Option Nat :=
  if c.isDigit then some (c.toNat - 48) else none

/-- Modelled from the spec: `parseTimecode`, the inverse-direction time-code
math of §4.5/§8; the repository has no parser, only the two formatters.
Reads `HH:MM:SS` followed by the format's millisecond separator and `mmm`,
returning the denoted number of seconds. -/
def parseTimecode (sep : Char) (str : String) : Option ℚ :=
  match str.data with
  | [h1, h2, c1, m1, m2, c2, s1, s2, c3, d1, d2, d3] =>
    if c1 = ':' ∧ c2 = ':' ∧ c3 = sep then
      match digitVal h1, digitVal h2, digitVal m1, digitVal m2,
            digitVal s1, digitVal s2, digitVal d1, digitVal d2, digitVal d3 with
      | some a, some b, some c, some d, some e, some f, some g, some h, some i =>
        some (((a * 10 + b : ℕ) : ℚ) * 3600 + ((c * 10 + d : ℕ) : ℚ) * 60 +
              ((e * 10 + f : ℕ) : ℚ) + ((g * 100 + h * 10 + i : ℕ) : ℚ) / 1000)
      | _, _, _, _, _, _, _, _, _ => none
    else none
  | _ => none

/-- Modelled from the spec: `truncateToMs(s)` of §8, seconds truncated
(floored) to whole milliseconds. -/
def truncateToMs (s : ℚ) : ℚ := ((⌊s * 1000⌋ : ℤ) : ℚ) / 1000

/-! ### Segments and subtitle rendering
(`_generate_vtt_content`, `_generate_srt_content`) -/

/-- One timed span of recognized speech (`{'start': …, 'end': …, 'text': …}`);
`stop` embeds the dictionary key `'end'` (a Lean keyword). -/
structure Segment where
  start : ℚ
  stop : ℚ
  text : String
deriving DecidableEq

/-- Embeds `_generate_vtt_content`: header `WEBVTT`, blank line, then per segment a
timecode range line, the text line and a blank line — no numeric index. -/
def generate_vtt_content (segments : List Segment) : String :=
  segments.foldl
    (fun acc seg =>
      acc ++ seconds_to_vtt_time seg.start ++ " --> " ++ seconds_to_vtt_time seg.stop ++ "\n"
        ++ seg.text ++ "\n\n")
    "WEBVTT\n\n"

/-- Embeds `_generate_srt_content`: per segment (`enumerate(segments, 1)`) an index
line, a timecode range line with comma separator, the text line and a blank
line. -/
def generate_srt_content (segments : List Segment) : String :=
  (List.enumFrom 1 segments).foldl
    (fun acc p =>
      acc ++ Nat.repr p.1 ++ "\n"
        ++ seconds_to_srt_time p.2.start ++ " --> " ++ seconds_to_srt_time p.2.stop ++ "\n"
        ++ p.2.text ++ "\n\n")
    ""

/-- One VTT cue block: range line, text line, blank line. -/
def vttBlock (seg : Segment) : String :=
  seconds_to_vtt_time seg.start ++ " --> " ++ seconds_to_vtt_time seg.stop ++ "\n"
    ++ seg.text ++ "\n\n"

/-- One SRT block: 1-based index line, range line (comma before the
milliseconds), text line, blank line. -/
def srtBlock (idx : Nat) (seg : Segment) : String :=
  Nat.repr idx ++ "\n"
    ++ seconds_to_srt_time seg.start ++ " --> " ++ seconds_to_srt_time seg.stop ++ "\n"
    ++ seg.text ++ "\n\n"

/-! ### Model runtime (`WhisperService.__init__`, `_load_config`,
`_save_config`, `_load_model`, `select_model`; registry data from
`config.py`) -/

def WHISPER_DEFAULT_MODEL : String := "base"

def WHISPER_AVAILABLE_MODELS : List String := ["base", "large-v3-turbo"]

def SUBTITLE_AVAILABLE_FORMATS : List String := ["srt", "vtt"]

/-- The persisted runtime-selection record `whisper_config.json`
(`{current_model, subtitle_output_format, updated_at}`; the timestamp field
carries no behavior and is omitted). -/
structure SavedConfig where
  current_model : String
  subtitle_output_format : String
deriving DecidableEq

/-- Mutable runtime state of `WhisperService`: the opaque loaded handle
(`none` when no handle is resident), the current identifier, the contents of
`whisper_config.json` (`none` when the file is absent), and the process-wide
`config.SUBTITLE_OUTPUT_FORMAT`. -/
structure WhisperState where
  current_model : Option Nat
  current_model_name : String
  savedConfig : Option SavedConfig
  subtitleFormat : String
deriving DecidableEq

/-- Deployment environment: whether `faster_whisper` imported
(`WhisperModel is not None`), the outcome of the `WhisperModel(...)`
constructor per model name (`none` means the constructor raises; the
local-directory and download branches differ only in constructor arguments
and logging), and whether writing `whisper_config.json` succeeds
(`_save_config` swallows write errors). -/
structure WhisperEnv where
  whisperAvailable : Bool
  constructModel : String → Option Nat
  saveWorks : Bool

/-- Embeds `_save_config`: write the selection record; an exception is caught and
logged, leaving the previous file contents. -/
def save_config (env : WhisperEnv) (st : WhisperState) : WhisperState :=
  if env.saveWorks then
    { st with savedConfig := some ⟨st.current_model_name, st.subtitleFormat⟩ }
  else st

/-- Embeds `_load_model`: mock success when the backend is unavailable; no-op when
a handle is resident and the current identifier already equals the target;
otherwise construct the model, set the handle and identifier, persist, and
return `true`; when the constructor raises, return `false` with the state
unchanged. The `Nat` component counts underlying model constructions
performed by the call. -/
def load_model (env : WhisperEnv) (st : WhisperState) (model_name : String) :
    Bool × WhisperState × Nat :=
  if env.whisperAvailable = false then (true, st, 0)
  else if st.current_model.isSome = true ∧ st.current_model_name = model_name then
    (true, st, 0)
  else
    match env.constructModel model_name with
    | none => (false, st, 1)
    | some h =>
      (true,
       save_config env
         { st with current_model := some h, current_model_name := model_name },
       1)

/-- Result dictionary of `select_model` (the `current_model` info attached
on success repeats state already in `WhisperState` and is omitted). -/
structure SelectResult where
  success : Bool
  message : String
deriving DecidableEq

/-- Embeds `select_model`: static registry check, then `_load_model`. -/
def select_model (env : WhisperEnv) (st : WhisperState) (model_name : String) :
    SelectResult × WhisperState × Nat :=
  if model_name ∉ WHISPER_AVAILABLE_MODELS then
    (⟨false, "不支持的模型: " ++ model_name⟩, st, 0)
  else
    match load_model env st model_name with
    | (true, st1, n) => (⟨true, "模型切换成功: " ++ model_name⟩, st1, n)
    | (false, st1, n) => (⟨false, "模型加载失败: " ++ model_name⟩, st1, n)

/-- Embeds `__init__` + `_load_config`: state at process start. With a config file
present, the identifier comes from its `current_model` and the subtitle
format is taken over only when it passes the allow-list; with no file, the
defaults are used and `_save_config` writes them. -/
def initState (env : WhisperEnv) (saved : Option SavedConfig) (defaultFormat : String) :
    WhisperState :=
  match saved with
  | some cfg =>
    { current_model := none
      current_model_name := cfg.current_model
      savedConfig := some cfg
      subtitleFormat :=
        if cfg.subtitle_output_format ∈ SUBTITLE_AVAILABLE_FORMATS then
          cfg.subtitle_output_format
        else defaultFormat }
  | none =>
    save_config env
      { current_model := none
        current_model_name := WHISPER_DEFAULT_MODEL
        savedConfig := none
        subtitleFormat := defaultFormat }

/-! ### Paths, the temp-storage directory and the file correlator
(`file_utils.find_file_by_id`, `_cleanup_temp_file`, `_preprocess_audio`,
`_save_subtitle_file`, `extract_subtitle`) -/

/-- A filesystem path as its list of components; `Path.parent` is
`dropLast` and `Path.parents` are the proper prefixes. -/
abbrev FsPath := List String

/-- The `pathlib` stem: the name without its last suffix; the suffix runs from
the last dot, provided that dot is neither the leading nor the final
character of the name. -/
def fileStem (name : String) : String :=
  let cs := name.data
  match cs.reverse.findIdx? (fun c => c == '.') with
  | none => name
  | some j => if 0 < cs.length - 1 - j ∧ 0 < j then ⟨cs.take (cs.length - 1 - j)⟩ else name

/-- One entry of the temp-storage directory scan (`TEMP_FOLDER.glob('*')`):
its file name and whether it is a regular file. -/
structure DirEntry where
  name : String
  isFile : Bool
deriving DecidableEq

/-- Embeds `find_file_by_id`: first pass returns the first regular file whose
name-without-extension equals `file_id` exactly; the second pass falls back
to the first regular file whose name-without-extension starts with
`file_id`; otherwise `none`. Returns the file's name (standing for
`str(file_path)`). -/
def find_file_by_id (entries : List DirEntry) (file_id : String) : Option String :=
  match entries.find? (fun e => e.isFile && fileStem e.name == file_id) with
  | some e => some e.name
  | none =>
    match entries.find? (fun e => e.isFile && (fileStem e.name).startsWith file_id) with
    | some e => some e.name
    | none => none

/-- The project `Temp` folder (`project_root / "Temp"`), shared by the
normalizer scratch files and `config.TEMP_FOLDER`. -/
def tempDir (root : FsPath) : FsPath := root ++ ["Temp"]

/-- The folder `config.SUBTITLES_FOLDER` (`BASE_DIR / 'Subtitles'`). -/
def SUBTITLES_FOLDER (root : FsPath) : FsPath := root ++ ["Subtitles"]

/-- Embeds `_cleanup_temp_file`: delete the path only when it exists and the Temp
folder is among its ancestors (`temp_dir in path.parents`) or is its direct
parent; every failure is swallowed, so the operation is total. The
filesystem is the list of existing paths. -/
def cleanup_temp_file (root : FsPath) (fs : List FsPath) (file_path : FsPath) :
    List FsPath :=
  if file_path ∈ fs then
    if (tempDir root <+: file_path ∧ tempDir root ≠ file_path) ∨
        file_path.dropLast = tempDir root then
      fs.erase file_path
    else fs
  else fs

/-- Environment of one `_preprocess_audio` call: whether `ffmpy` imported,
whether `ff.run()` raises, whether the output file exists afterwards, and
the `%Y%m%d_%H%M%S_%f` timestamp used in the scratch name. -/
structure FfmpegEnv where
  ffmpegAvailable : Bool
  runRaises : Bool
  outputExists : Bool
  timestamp : String

/-- The scratch path `Temp/preprocessed_audio_{timestamp}.mp3`. -/
def preprocessOutput (root : FsPath) (env : FfmpegEnv) : FsPath :=
  tempDir root ++ ["preprocessed_audio_" ++ env.timestamp ++ ".mp3"]

/-- Embeds `_preprocess_audio`: pass the input through unchanged when FFmpeg is
unavailable, when the run raises, or when the output file is missing;
otherwise return the scratch path, now existing on disk. -/
def preprocess_audio (root : FsPath) (env : FfmpegEnv) (fs : List FsPath)
    (input_path : FsPath) : FsPath × List FsPath :=
  if env.ffmpegAvailable = false then (input_path, fs)
  else if env.runRaises = true then (input_path, fs)
  else if env.outputExists = true then
    (preprocessOutput root env, List.insert (preprocessOutput root env) fs)
  else (input_path, fs)

/-- Python `str.lower()` on the format tag (kernel-computable counterpart
of `String.toLower`). -/
def strLower (s : String) : String := ⟨s.data.map Char.toLower⟩

/-- The filename `f"{original_name}_{timestamp}.{output_format}"`. -/
def subtitleFilename (stem timestamp fmt : String) : String :=
  stem ++ "_" ++ timestamp ++ "." ++ fmt

/-- Embeds `_save_subtitle_file`: validate the configured format against the
allow-list (default `vtt`), render the segments with the matching generator
(`_generate_vtt_content` / `_generate_srt_content`), and write
`{stem}_{timestamp}.{format}` into the Subtitles folder; a write error is
caught and yields the empty string with nothing written. The returned
string is the saved file's name (standing for `str(subtitle_path)`);
`timestamp` is `datetime.now().strftime('%Y%m%d_%H%M%S')` taken at save
time. -/
def save_subtitle_file (root : FsPath) (writeOk : Bool) (timestamp : String)
    (st : WhisperState) (fs : List FsPath) (original_file_path : FsPath)
    (segments : List Segment) : String × List FsPath :=
  let fmt0 := strLower st.subtitleFormat
  let fmt := if fmt0 ∈ SUBTITLE_AVAILABLE_FORMATS then fmt0 else ("vtt")
  let fname := subtitleFilename (fileStem (original_file_path.getLastD (""))) timestamp fmt
  let _content :=
    if fmt = "vtt" then generate_vtt_content segments else generate_srt_content segments
  if writeOk then (fname, List.insert (SUBTITLES_FOLDER root ++ [fname]) fs)
  else ("", fs)

/-- The fixed three-segment placeholder transcript of
`_mock_extract_subtitle`. -/
def mock_segments : List Segment :=
  [⟨0, 3, "这是一个测试字幕片段。"⟩,
   ⟨3, 6, "这里是第二个字幕片段。"⟩,
   ⟨6, 9, "最后一个测试片段。"⟩]

/-- Result of `extract_subtitle` (text/segments/language/duration metadata
omitted; the claims concern the flag, the message and the written file). -/
structure ExtractResult where
  success : Bool
  message : String
  subtitle_file : String
deriving DecidableEq

/-- Environment of one `extract_subtitle` call: the runtime environment,
the FFmpeg environment, the outcome of `model.transcribe` (`none` means it
raises), the save-time timestamp for the subtitle filename, and whether the
subtitle write succeeds. -/
structure ExtractEnv where
  whisper : WhisperEnv
  ffmpeg : FfmpegEnv
  transcribeResult : Option (List Segment)
  saveTimestamp : String
  writeOk : Bool

/-- The model-selection prologue of `extract_subtitle` (lines 240–251):
load the requested model when it differs from the current one, else load
the current identifier when no handle is resident; a failed load yields the
typed failure result. -/
def selectForExtract (env : WhisperEnv) (st : WhisperState)
    (model_name : Option String) : Option ExtractResult × WhisperState :=
  match model_name with
  | some m =>
    if m ≠ st.current_model_name then
      match load_model env st m with
      | (true, st1, _) => (none, st1)
      | (false, st1, _) => (some ⟨false, "模型加载失败: " ++ m, ""⟩, st1)
    else if st.current_model = none then
      match load_model env st st.current_model_name with
      | (true, st1, _) => (none, st1)
      | (false, st1, _) => (some ⟨false, "默认模型加载失败", ""⟩, st1)
    else (none, st)
  | none =>
    if st.current_model = none then
      match load_model env st st.current_model_name with
      | (true, st1, _) => (none, st1)
      | (false, st1, _) => (some ⟨false, "默认模型加载失败", ""⟩, st1)
    else (none, st)

/-- Embeds `extract_subtitle`: existence check, model selection, mock mode when the
backend is absent, otherwise preprocess → transcribe → save, with the
`finally` block cleaning the preprocessing scratch file whenever it differs
from the original input. A transcription exception is caught and reported
as a typed failure (its message text is environment-dependent and modelled
by a fixed prefix). -/
def extract_subtitle (root : FsPath) (env : ExtractEnv) (st : WhisperState)
    (fs : List FsPath) (file_path : FsPath) (model_name : Option String) :
    ExtractResult × WhisperState × List FsPath :=
  if file_path ∈ fs then
    match selectForExtract env.whisper st model_name with
    | (some res, st1) => (res, st1, fs)
    | (none, st1) =>
      if env.whisper.whisperAvailable = false then
        let sv := save_subtitle_file root env.writeOk env.saveTimestamp st1 fs
          file_path mock_segments
        (⟨true, "字幕提取成功（模拟模式）", sv.1⟩, st1, sv.2)
      else
        let pr := preprocess_audio root env.ffmpeg fs file_path
        let step : ExtractResult × List FsPath :=
          match env.transcribeResult with
          | none => (⟨false, "字幕提取失败: ", ""⟩, pr.2)
          | some segs =>
            let sv := save_subtitle_file root env.writeOk env.saveTimestamp st1 pr.2
              file_path segs
            (⟨true, "字幕提取成功", sv.1⟩, sv.2)
        let fsF := if pr.1 ≠ file_path then cleanup_temp_file root step.2 pr.1 else step.2
        (step.1, st1, fsF)
  else (⟨false, "文件不存在", ""⟩, st, fs)

/-! ### Proofs about the time-code conversion -/

theorem pad2_digits :
    ∀ n < 100, (pad2 n).data.map digitVal = [some (n / 10), some (n % 10)] := by
  decide

theorem pad3_digits : ∀ n < 1000,
    (pad3 n).data.map digitVal = [some (n / 100), some (n / 10 % 10), some (n % 10)] := by
  decide

lemma natFloor_self_eq (s : ℚ) : ⌊s⌋₊ = ⌊s * 1000⌋₊ / 1000 := by
  have h : s = s * 1000 / ((1000 : ℕ) : ℚ) := by push_cast; ring
  calc ⌊s⌋₊ = ⌊s * 1000 / ((1000 : ℕ) : ℚ)⌋₊ := by rw [← h]
    _ = ⌊s * 1000⌋₊ / 1000 := Nat.floor_div_nat _ 1000

/-- The four fields computed by the converters, expressed through the total
truncated millisecond count `⌊s * 1000⌋₊`. -/
lemma timecode_parts (s : ℚ) (hs : 0 ≤ s) :
    (⌊s / 3600⌋).toNat = ⌊s * 1000⌋₊ / 3600000 ∧
    (⌊(s - 3600 * (⌊s / 3600⌋ : ℚ)) / 60⌋).toNat = ⌊s * 1000⌋₊ / 60000 % 60 ∧
    (⌊s - 60 * (⌊s / 60⌋ : ℚ)⌋).toNat = ⌊s * 1000⌋₊ / 1000 % 60 ∧
    (⌊(s - (⌊s⌋ : ℚ)) * 1000⌋).toNat = ⌊s * 1000⌋₊ % 1000 := by
  set M := ⌊s * 1000⌋₊ with hM
  have hs1000 : (0 : ℚ) ≤ s * 1000 := by positivity
  have hMfloor : ⌊s * 1000⌋ = (M : ℤ) := by
    rw [hM, ← Int.floor_toNat, Int.toNat_of_nonneg (Int.floor_nonneg.2 hs1000)]
  have hfloor_s : ⌊s⌋ = ((M / 1000 : ℕ) : ℤ) := by
    rw [← natFloor_self_eq, ← Int.floor_toNat, Int.toNat_of_nonneg (Int.floor_nonneg.2 hs)]
  have hfloor60 : ⌊s / 60⌋ = ((M / 60000 : ℕ) : ℤ) := by
    have h1 : (0 : ℚ) ≤ s / 60 := by positivity
    have h60 : ((60 : ℕ) : ℚ) = 60 := by norm_num
    have h2 : (⌊s / 60⌋).toNat = ⌊s⌋₊ / 60 := by
      rw [Int.floor_toNat, ← h60, Nat.floor_div_nat]
    have h3 : ⌊s⌋₊ / 60 = M / 60000 := by
      rw [natFloor_self_eq]
      omega
    rw [← Int.toNat_of_nonneg (Int.floor_nonneg.2 h1), h2, h3]
  have hfloor3600 : ⌊s / 3600⌋ = ((M / 3600000 : ℕ) : ℤ) := by
    have h1 : (0 : ℚ) ≤ s / 3600 := by positivity
    have h3600 : ((3600 : ℕ) : ℚ) = 3600 := by norm_num
    have h2 : (⌊s / 3600⌋).toNat = ⌊s⌋₊ / 3600 := by
      rw [Int.floor_toNat, ← h3600, Nat.floor_div_nat]
    have h3 : ⌊s⌋₊ / 3600 = M / 3600000 := by
      rw [natFloor_self_eq]
      omega
    rw [← Int.toNat_of_nonneg (Int.floor_nonneg.2 h1), h2, h3]
  refine ⟨?_, ?_, ?_, ?_⟩
  · rw [hfloor3600]; omega
  · have e : (s - 3600 * (⌊s / 3600⌋ : ℚ)) / 60 = s / 60 - ((60 * ⌊s / 3600⌋ : ℤ) : ℚ) := by
      push_cast; ring
    rw [e, Int.floor_sub_int, hfloor60, hfloor3600]
    omega
  · have e : s - 60 * (⌊s / 60⌋ : ℚ) = s - ((60 * ⌊s / 60⌋ : ℤ) : ℚ) := by push_cast; ring
    rw [e, Int.floor_sub_int, hfloor_s, hfloor60]
    omega
  · have e : (s - (⌊s⌋ : ℚ)) * 1000 = s * 1000 - ((1000 * ⌊s⌋ : ℤ) : ℚ) := by push_cast; ring
    rw [e, Int.floor_sub_int, hMfloor, hfloor_s]
    omega

lemma map_digitVal_pair {l : List Char} {u v : Nat}
    (h : l.map digitVal = [some u, some v]) :
    ∃ a b, l = [a, b] ∧ digitVal a = some u ∧ digitVal b = some v := by
  cases l with
  | nil => simp at h
  | cons a t =>
    cases t with
    | nil => simp at h
    | cons b t2 =>
      cases t2 with
      | nil =>
        simp only [List.map_cons, List.map_nil, List.cons.injEq, and_true] at h
        exact ⟨a, b, rfl, h.1, h.2⟩
      | cons c t3 => simp at h

lemma map_digitVal_triple {l : List Char} {u v w : Nat}
    (h : l.map digitVal = [some u, some v, some w]) :
    ∃ a b c, l = [a, b, c] ∧ digitVal a = some u ∧ digitVal b = some v ∧
      digitVal c = some w := by
  cases l with
  | nil => simp at h
  | cons a t =>
    cases t with
    | nil => simp at h
    | cons b t2 =>
      cases t2 with
      | nil => simp at h
      | cons c t3 =>
        cases t3 with
        | nil =>
          simp only [List.map_cons, List.map_nil, List.cons.injEq, and_true] at h
          exact ⟨a, b, c, rfl, h.1, h.2.1, h.2.2⟩
        | cons d t4 => simp at h

/-- Parsing a rendered `HH:MM:SS` + separator + `mmm` time-code recovers the
field values. -/
lemma parseTimecode_format (sep : Char) (sepS : String) (hsepS : sepS.data = [sep])
    (hh mm ss ms : Nat) (hhh : hh < 100) (hmm : mm < 100) (hss : ss < 100)
    (hms : ms < 1000) :
    parseTimecode sep (pad2 hh ++ ":" ++ pad2 mm ++ ":" ++ pad2 ss ++ sepS ++ pad3 ms)
      = some ((hh : ℚ) * 3600 + (mm : ℚ) * 60 + (ss : ℚ) + (ms : ℚ) / 1000) := by
  obtain ⟨a1, a2, ha, ha1, ha2⟩ := map_digitVal_pair (pad2_digits hh hhh)
  obtain ⟨b1, b2, hb, hb1, hb2⟩ := map_digitVal_pair (pad2_digits mm hmm)
  obtain ⟨c1, c2, hc, hc1, hc2⟩ := map_digitVal_pair (pad2_digits ss hss)
  obtain ⟨d1, d2, d3, hd, hd1, hd2, hd3⟩ := map_digitVal_triple (pad3_digits ms hms)
  have hcolon : (":" : String).data = [':'] := rfl
  have hdata : (pad2 hh ++ ":" ++ pad2 mm ++ ":" ++ pad2 ss ++ sepS ++ pad3 ms).data
      = [a1, a2, ':', b1, b2, ':', c1, c2, sep, d1, d2, d3] := by
    simp [String.data_append, ha, hb, hc, hd, hsepS, hcolon]
  unfold parseTimecode
  rw [hdata]
  simp only [ha1, ha2, hb1, hb2, hc1, hc2, hd1, hd2, hd3, and_self, if_true]
  have r1 : hh / 10 * 10 + hh % 10 = hh := by omega
  have r2 : mm / 10 * 10 + mm % 10 = mm := by omega
  have r3 : ss / 10 * 10 + ss % 10 = ss := by omega
  have r4 : ms / 100 * 100 + ms / 10 % 10 * 10 + ms % 10 = ms := by omega
  rw [r1, r2, r3, r4]

/-- C1. Timecode round-trip truncation: for every seconds value `s` in
`[0, 86399.999]`, formatting `s` with the VTT (period) converter and parsing
the resulting `HH:MM:SS.mmm` string back yields `s` truncated to whole
milliseconds, likewise for the SRT (comma) converter, and the rendered
millisecond field is always below 1000 (truncation, never rounding). -/
theorem timecode_roundtrip (s : ℚ) (h0 : 0 ≤ s) (h1 : s ≤ 86399999 / 1000) :
    parseTimecode '.' (seconds_to_vtt_time s) = some (truncateToMs s) ∧
    parseTimecode ',' (seconds_to_srt_time s) = some (truncateToMs s) ∧
    (⌊(s - (⌊s⌋ : ℚ)) * 1000⌋).toNat < 1000 := by
  obtain ⟨p1, p2, p3, p4⟩ := timecode_parts s h0
  set M := ⌊s * 1000⌋₊ with hM
  have hMle : M ≤ 86399999 := by
    have hle : s * 1000 ≤ 86399999 := by linarith
    calc M ≤ ⌊(86399999 : ℚ)⌋₊ := Nat.floor_le_floor hle
      _ = 86399999 := by norm_num
  have hMfloor : ⌊s * 1000⌋ = (M : ℤ) := by
    rw [hM, ← Int.floor_toNat, Int.toNat_of_nonneg (Int.floor_nonneg.2 (by positivity))]
  have hid : M / 3600000 * 3600000 + M / 60000 % 60 * 60000 + M / 1000 % 60 * 1000
      + M % 1000 = M := by omega
  have hsum : ((M : ℚ)) = ((M / 3600000 : ℕ) : ℚ) * 3600000
      + ((M / 60000 % 60 : ℕ) : ℚ) * 60000 + ((M / 1000 % 60 : ℕ) : ℚ) * 1000
      + ((M % 1000 : ℕ) : ℚ) := by
    exact_mod_cast congrArg (fun n => ((n : ℕ) : ℚ)) hid.symm
  have hval : ((M / 3600000 : ℕ) : ℚ) * 3600 + ((M / 60000 % 60 : ℕ) : ℚ) * 60 +
      ((M / 1000 % 60 : ℕ) : ℚ) + ((M % 1000 : ℕ) : ℚ) / 1000 = truncateToMs s := by
    rw [truncateToMs, hMfloor, Int.cast_natCast, hsum]
    ring
  have bh : M / 3600000 < 100 := by omega
  have bm : M / 60000 % 60 < 100 := by omega
  have bs : M / 1000 % 60 < 100 := by omega
  have bms : M % 1000 < 1000 := by omega
  refine ⟨?_, ?_, ?_⟩
  · have hf : seconds_to_vtt_time s
        = pad2 (M / 3600000) ++ ":" ++ pad2 (M / 60000 % 60) ++ ":"
          ++ pad2 (M / 1000 % 60) ++ "." ++ pad3 (M % 1000) := by
      simp only [seconds_to_vtt_time]
      rw [p1, p2, p3, p4]
    rw [hf, parseTimecode_format '.' "." rfl _ _ _ _ bh bm bs bms, hval]
  · have hf : seconds_to_srt_time s
        = pad2 (M / 3600000) ++ ":" ++ pad2 (M / 60000 % 60) ++ ":"
          ++ pad2 (M / 1000 % 60) ++ "," ++ pad3 (M % 1000) := by
      simp only [seconds_to_srt_time]
      rw [p1, p2, p3, p4]
    rw [hf, parseTimecode_format ',' "," rfl _ _ _ _ bh bm bs bms, hval]
  · rw [p4]; omega

/-- Witness for C1 at `s = 3661.5` (formats as `01:01:01.500`). -/
theorem timecode_roundtrip_witness :
    (0 : ℚ) ≤ 36615 / 10 ∧ (36615 / 10 : ℚ) ≤ 86399999 / 1000 ∧
    parseTimecode '.' (seconds_to_vtt_time (36615 / 10))
      = some (truncateToMs (36615 / 10)) ∧
    parseTimecode ',' (seconds_to_srt_time (36615 / 10))
      = some (truncateToMs (36615 / 10)) :=
  ⟨by norm_num, by norm_num,
   (timecode_roundtrip (36615 / 10) (by norm_num) (by norm_num)).1,
   (timecode_roundtrip (36615 / 10) (by norm_num) (by norm_num)).2.1⟩

/-! ### Proofs about the subtitle renderers -/

lemma strFoldl_acc : ∀ (l : List String) (a b : String),
    l.foldl (· ++ ·) (a ++ b) = a ++ l.foldl (· ++ ·) b := by
  intro l
  induction l with
  | nil => intro a b; rfl
  | cons c t ih =>
    intro a b
    show t.foldl (· ++ ·) (a ++ b ++ c) = a ++ t.foldl (· ++ ·) (b ++ c)
    rw [String.append_assoc, ih]

lemma join_cons (s : String) (l : List String) :
    String.join (s :: l) = s ++ String.join l := by
  show l.foldl (· ++ ·) ("" ++ s) = s ++ String.join l
  rw [String.empty_append, ← String.append_empty s, strFoldl_acc, String.append_empty]
  rfl

/-- Accumulating blocks with `foldl` appends the joined rendered blocks. -/
lemma foldl_blocks (f : α → String) : ∀ (l : List α) (acc : String),
    l.foldl (fun a x => a ++ f x) acc = acc ++ String.join (l.map f) := by
  intro l
  induction l with
  | nil => intro acc; simp [String.join]
  | cons c t ih =>
    intro acc
    show t.foldl (fun a x => a ++ f x) (acc ++ f c) = acc ++ String.join (f c :: t.map f)
    rw [ih, join_cons, String.append_assoc]

/-- Mapping an uncurried function over `enumerate(l, i)` by an uncurried map is the `zipWith` of `g`
over the shifted index range. -/
lemma enumFrom_map_eq_zipWith (g : Nat → α → β) : ∀ (l : List α) (i : Nat),
    (List.enumFrom i l).map (fun p => g p.1 p.2)
      = List.zipWith g ((List.range l.length).map (· + i)) l := by
  intro l
  induction l with
  | nil => intro i; rfl
  | cons a t ih =>
    intro i
    show g i a :: (List.enumFrom (i + 1) t).map (fun p => g p.1 p.2) = _
    rw [ih]
    simp only [List.length_cons, List.range_succ_eq_map, List.map_cons, List.map_map,
      Nat.zero_add, List.zipWith_cons_cons]
    have he : List.map (fun x => x + (i + 1)) (List.range t.length)
        = List.map ((fun x => x + i) ∘ Nat.succ) (List.range t.length) := by
      apply List.map_congr_left
      intro x _
      simp [Function.comp]
      omega
    rw [← he]

lemma generate_vtt_foldfn :
    (fun (acc : String) (seg : Segment) =>
        acc ++ seconds_to_vtt_time seg.start ++ " --> " ++ seconds_to_vtt_time seg.stop
          ++ "\n" ++ seg.text ++ "\n\n")
      = fun acc seg => acc ++ vttBlock seg := by
  funext acc seg
  simp [vttBlock, String.append_assoc]

lemma generate_srt_foldfn :
    (fun (acc : String) (p : Nat × Segment) =>
        acc ++ Nat.repr p.1 ++ "\n" ++ seconds_to_srt_time p.2.start ++ " --> "
          ++ seconds_to_srt_time p.2.stop ++ "\n" ++ p.2.text ++ "\n\n")
      = fun acc p => acc ++ srtBlock p.1 p.2 := by
  funext acc p
  simp [srtBlock, String.append_assoc]

/-- C5. Subtitle rendering structure: the VTT renderer's output is the
literal `WEBVTT` header line with a blank line, followed by the
concatenation of one index-free block per segment (range line, text line,
blank line), and the SRT renderer's output is the concatenation of one
block per segment whose `N`th block carries the 1-based index `N`, a comma
range line, the text line and a blank line; both render exactly
`segments.length` blocks. -/
theorem subtitle_render_structure (segments : List Segment) :
    generate_vtt_content segments = "WEBVTT\n\n" ++ String.join (segments.map vttBlock) ∧
    generate_srt_content segments
      = String.join (List.zipWith srtBlock ((List.range segments.length).map (· + 1))
          segments) ∧
    (segments.map vttBlock).length = segments.length ∧
    (List.zipWith srtBlock ((List.range segments.length).map (· + 1)) segments).length
      = segments.length := by
  refine ⟨?_, ?_, by simp, by simp⟩
  · rw [generate_vtt_content, generate_vtt_foldfn, foldl_blocks]
  · rw [generate_srt_content, generate_srt_foldfn, foldl_blocks, String.empty_append,
      enumFrom_map_eq_zipWith srtBlock segments 1]

/-! ### Proofs about the model runtime -/

lemma save_config_current_model (env : WhisperEnv) (st : WhisperState) :
    (save_config env st).current_model = st.current_model := by
  unfold save_config; split <;> rfl

lemma save_config_name (env : WhisperEnv) (st : WhisperState) :
    (save_config env st).current_model_name = st.current_model_name := by
  unfold save_config; split <;> rfl

lemma load_model_mock (env : WhisperEnv) (st : WhisperState) (id : String)
    (h : env.whisperAvailable = false) : load_model env st id = (true, st, 0) := by
  simp [load_model, h]

lemma load_model_noop (env : WhisperEnv) (st : WhisperState) (id : String)
    (hav : env.whisperAvailable = true) (hsome : st.current_model.isSome = true)
    (hname : st.current_model_name = id) : load_model env st id = (true, st, 0) := by
  simp [load_model, hav, hsome, hname]

lemma load_model_construct (env : WhisperEnv) (st : WhisperState) (id : String) (h : Nat)
    (hav : env.whisperAvailable = true)
    (hno : ¬(st.current_model.isSome = true ∧ st.current_model_name = id))
    (hc : env.constructModel id = some h) :
    load_model env st id
      = (true,
         save_config env
           { st with current_model := some h, current_model_name := id }, 1) := by
  simp [load_model, hav, hno, hc]

lemma load_model_fail (env : WhisperEnv) (st : WhisperState) (id : String)
    (hav : env.whisperAvailable = true)
    (hno : ¬(st.current_model.isSome = true ∧ st.current_model_name = id))
    (hc : env.constructModel id = none) :
    load_model env st id = (false, st, 1) := by
  simp [load_model, hav, hno, hc]

/-- C2. Model-load idempotence: when the backend is absent or the model's
construction succeeds, two successive loads of the same identifier perform
at most one underlying construction, the second call being a success no-op;
and the sequence `load "base"; load "large-v3-turbo"; load "base"` starting
from `"base"` loaded performs exactly two constructions. -/
theorem load_model_idempotent :
    (∀ (env : WhisperEnv) (st : WhisperState) (id : String),
      env.whisperAvailable = false ∨ (env.constructModel id).isSome = true →
      (load_model env st id).2.2 + (load_model env (load_model env st id).2.1 id).2.2 ≤ 1 ∧
      (load_model env (load_model env st id).2.1 id).1 = true ∧
      (load_model env (load_model env st id).2.1 id).2.1 = (load_model env st id).2.1) ∧
    (∀ (env : WhisperEnv) (st : WhisperState) (h : Nat),
      env.whisperAvailable = true → st.current_model = some h →
      st.current_model_name = "base" →
      (env.constructModel ("base")).isSome = true →
      (env.constructModel ("large-v3-turbo")).isSome = true →
      (load_model env st ("base")).2.2
        + (load_model env (load_model env st ("base")).2.1 ("large-v3-turbo")).2.2
        + (load_model env
            (load_model env (load_model env st ("base")).2.1 ("large-v3-turbo")).2.1
            "base").2.2 = 2) := by
  constructor
  · intro env st id h
    rcases h with hmock | hc
    · rw [load_model_mock env st id hmock]
      rw [load_model_mock env st id hmock]
      simp
    · obtain ⟨hh, hceq⟩ := Option.isSome_iff_exists.1 hc
      by_cases hav : env.whisperAvailable = false
      · rw [load_model_mock env st id hav]
        rw [load_model_mock env st id hav]
        simp
      · have hav' : env.whisperAvailable = true := by
          revert hav; cases env.whisperAvailable <;> simp
        by_cases hno : st.current_model.isSome = true ∧ st.current_model_name = id
        · rw [load_model_noop env st id hav' hno.1 hno.2]
          rw [load_model_noop env st id hav' hno.1 hno.2]
          simp
        · rw [load_model_construct env st id hh hav' hno hceq]
          have hnoop2 := load_model_noop env
            (save_config env { st with current_model := some hh, current_model_name := id })
            id hav'
            (by rw [save_config_current_model]; rfl)
            (by rw [save_config_name])
          rw [hnoop2]
          simp
  · intro env st h hav hsome hname hcb hct
    obtain ⟨ht, hteq⟩ := Option.isSome_iff_exists.1 hct
    obtain ⟨hb, hbeq⟩ := Option.isSome_iff_exists.1 hcb
    rw [load_model_noop env st ("base") hav (by rw [hsome]; rfl) hname]
    have hno2 : ¬(st.current_model.isSome = true ∧
        st.current_model_name = "large-v3-turbo") := by
      rw [hname]; simp
    rw [load_model_construct env st ("large-v3-turbo") ht hav hno2 hteq]
    have hno3 : ¬((save_config env
        { st with current_model := some ht,
                  current_model_name := "large-v3-turbo" }).current_model.isSome = true ∧
        (save_config env
          { st with current_model := some ht,
                    current_model_name := "large-v3-turbo" }).current_model_name
          = "base") := by
      rw [save_config_name]
      simp
    rw [load_model_construct env _ ("base") hb hav hno3 hbeq]
    rfl

/-- Witness for C2: concrete runs of both conjuncts. -/
theorem load_model_idempotent_witness :
    ((load_model ⟨true, fun _ => some 5, true⟩ ⟨none, "base", none, "vtt"⟩ "base").2.2
      + (load_model ⟨true, fun _ => some 5, true⟩
          (load_model ⟨true, fun _ => some 5, true⟩
            ⟨none, "base", none, "vtt"⟩ "base").2.1 "base").2.2 ≤ 1) ∧
    ((load_model ⟨true, fun _ => some 5, true⟩ ⟨some 0, "base", none, "vtt"⟩ "base").2.2
      + (load_model ⟨true, fun _ => some 5, true⟩
          (load_model ⟨true, fun _ => some 5, true⟩
            ⟨some 0, "base", none, "vtt"⟩ "base").2.1 "large-v3-turbo").2.2
      + (load_model ⟨true, fun _ => some 5, true⟩
          (load_model ⟨true, fun _ => some 5, true⟩
            (load_model ⟨true, fun _ => some 5, true⟩
              ⟨some 0, "base", none, "vtt"⟩ "base").2.1 "large-v3-turbo").2.1
          "base").2.2 = 2) :=
  ⟨(load_model_idempotent.1 ⟨true, fun _ => some 5, true⟩
      ⟨none, "base", none, "vtt"⟩ "base" (Or.inr rfl)).1,
   load_model_idempotent.2 ⟨true, fun _ => some 5, true⟩
     ⟨some 0, "base", none, "vtt"⟩ 0 rfl rfl rfl rfl rfl⟩

/-- C3. Load-failure atomicity: a failed load leaves the state (handle and
identifier) unchanged and is reported as a `false` return; `select_model`
surfaces it as a typed failure result with the state unchanged, and an
identifier outside the static registry yields a typed failure with the
state unchanged. -/
theorem load_failure_atomic :
    (∀ (env : WhisperEnv) (st : WhisperState) (id : String),
      (load_model env st id).1 = false → (load_model env st id).2.1 = st) ∧
    (∀ (env : WhisperEnv) (st : WhisperState) (id : String),
      (load_model env st id).1 = false →
      (select_model env st id).1.success = false ∧ (select_model env st id).2.1 = st) ∧
    (∀ (env : WhisperEnv) (st : WhisperState) (id : String),
      id ∉ WHISPER_AVAILABLE_MODELS →
      (select_model env st id).1 = ⟨false, "不支持的模型: " ++ id⟩ ∧
      (select_model env st id).2.1 = st) := by
  have key : ∀ (env : WhisperEnv) (st : WhisperState) (id : String),
      (load_model env st id).1 = false →
      load_model env st id = (false, st, 1) := by
    intro env st id hfail
    by_cases hav : env.whisperAvailable = false
    · rw [load_model_mock env st id hav] at hfail ⊢
      simp at hfail
    · have hav' : env.whisperAvailable = true := by
        revert hav; cases env.whisperAvailable <;> simp
      by_cases hno : st.current_model.isSome = true ∧ st.current_model_name = id
      · rw [load_model_noop env st id hav' hno.1 hno.2] at hfail ⊢
        simp at hfail
      · cases hc : env.constructModel id with
        | none => exact load_model_fail env st id hav' hno hc
        | some h =>
          rw [load_model_construct env st id h hav' hno hc] at hfail
          simp at hfail
  refine ⟨fun env st id hf => by rw [key env st id hf], ?_, ?_⟩
  · intro env st id hf
    by_cases hreg : id ∈ WHISPER_AVAILABLE_MODELS
    · simp only [select_model]
      rw [if_neg (by simp [hreg])]
      rw [key env st id hf]
      simp
    · simp [select_model, hreg]
  · intro env st id hreg
    simp [select_model, hreg]

/-- Witness for C3: a deployment whose constructor always raises, and an
unregistered identifier. -/
theorem load_failure_atomic_witness :
    ((load_model ⟨true, fun _ => none, true⟩ ⟨none, "base", none, "vtt"⟩ "base").2.1
      = ⟨none, "base", none, "vtt"⟩) ∧
    (select_model ⟨true, fun _ => none, true⟩ ⟨none, "base", none, "vtt"⟩ "tiny").1
      = ⟨false, "不支持的模型: " ++ "tiny"⟩ :=
  ⟨load_failure_atomic.1 ⟨true, fun _ => none, true⟩ ⟨none, "base", none, "vtt"⟩
     "base" rfl,
   (load_failure_atomic.2.2 ⟨true, fun _ => none, true⟩ ⟨none, "base", none, "vtt"⟩
     "tiny" (by decide)).1⟩

/-- Counterexample to C8 as stated: in the degraded mode (recognition
backend unavailable) the load of `"large-v3-turbo"` reports success, yet the
current identifier stays `"base"` and the persisted record still names
`"base"`. -/
theorem load_success_updates_counterexample :
    (load_model ⟨false, fun _ => some 0, true⟩
      ⟨none, "base", some ⟨"base", "vtt"⟩, "vtt"⟩ "large-v3-turbo").1 = true ∧
    (load_model ⟨false, fun _ => some 0, true⟩
      ⟨none, "base", some ⟨"base", "vtt"⟩, "vtt"⟩
      "large-v3-turbo").2.1.current_model_name = "base" ∧
    (load_model ⟨false, fun _ => some 0, true⟩
      ⟨none, "base", some ⟨"base", "vtt"⟩, "vtt"⟩
      "large-v3-turbo").2.1.savedConfig = some ⟨"base", "vtt"⟩ ∧
    "base" ≠ "large-v3-turbo" :=
  ⟨rfl, rfl, rfl, by decide⟩

/-- C8 (amended). With the recognition backend available, a successful load
of `id` leaves the current identifier equal to `id`; when the call performed
the underlying load (rather than the no-op path) and the config write
succeeds, the selection record names `id` and a process start from that
record resumes with `id`. -/
theorem load_success_updates (env : WhisperEnv) (st : WhisperState) (id : String)
    (hav : env.whisperAvailable = true) (hok : (load_model env st id).1 = true) :
    (load_model env st id).2.1.current_model_name = id ∧
    (env.saveWorks = true → (load_model env st id).2.2 = 1 →
      (load_model env st id).2.1.savedConfig = some ⟨id, st.subtitleFormat⟩ ∧
      ∀ (env2 : WhisperEnv) (d : String),
        (initState env2 (load_model env st id).2.1.savedConfig d).current_model_name
          = id) := by
  by_cases hno : st.current_model.isSome = true ∧ st.current_model_name = id
  · rw [load_model_noop env st id hav hno.1 hno.2]
    exact ⟨hno.2, by intro _ hcount; simp at hcount⟩
  · cases hc : env.constructModel id with
    | none =>
      rw [load_model_fail env st id hav hno hc] at hok
      simp at hok
    | some h =>
      rw [load_model_construct env st id h hav hno hc]
      constructor
      · rw [save_config_name]
      · intro hsave _
        constructor
        · simp [save_config, hsave]
        · intro env2 d
          simp [save_config, hsave, initState]

/-- Witness for C8 (amended): a fresh runtime loads `"large-v3-turbo"`
successfully; the identifier and the persisted record follow. -/
theorem load_success_updates_witness :
    (load_model ⟨true, fun _ => some 5, true⟩ ⟨none, "base", none, "vtt"⟩
      "large-v3-turbo").2.1.current_model_name = "large-v3-turbo" ∧
    (load_model ⟨true, fun _ => some 5, true⟩ ⟨none, "base", none, "vtt"⟩
      "large-v3-turbo").2.1.savedConfig = some ⟨"large-v3-turbo", "vtt"⟩ :=
  ⟨(load_success_updates ⟨true, fun _ => some 5, true⟩ ⟨none, "base", none, "vtt"⟩
      "large-v3-turbo" rfl rfl).1,
   ((load_success_updates ⟨true, fun _ => some 5, true⟩ ⟨none, "base", none, "vtt"⟩
      "large-v3-turbo" rfl rfl).2 rfl rfl).1⟩

/-! ### Proofs about the correlator and the cleanup -/

/-- C6. Correlator exact-match priority: whenever a regular file whose
name-without-extension equals `file_id` exists, `find_file_by_id` returns
such a file (even if prefix-only matches coexist); with no exact match it
falls back to a prefix match; with neither it returns `none`. -/
theorem find_file_exact_priority (entries : List DirEntry) (file_id : String) :
    ((∃ e ∈ entries, e.isFile = true ∧ fileStem e.name = file_id) →
      ∃ e ∈ entries, e.isFile = true ∧ fileStem e.name = file_id ∧
        find_file_by_id entries file_id = some e.name) ∧
    ((¬∃ e ∈ entries, e.isFile = true ∧ fileStem e.name = file_id) →
      (∃ e ∈ entries, e.isFile = true ∧ (fileStem e.name).startsWith file_id = true) →
      ∃ e ∈ entries, e.isFile = true ∧ (fileStem e.name).startsWith file_id = true ∧
        find_file_by_id entries file_id = some e.name) ∧
    ((¬∃ e ∈ entries, e.isFile = true ∧
        (fileStem e.name = file_id ∨ (fileStem e.name).startsWith file_id = true)) →
      find_file_by_id entries file_id = none) := by
  refine ⟨?_, ?_, ?_⟩
  · rintro ⟨e, hmem, hfile, hstem⟩
    cases hf : entries.find? (fun e => e.isFile && fileStem e.name == file_id) with
    | none =>
      exfalso
      have := List.find?_eq_none.1 hf e hmem
      simp [hfile, hstem] at this
    | some e1 =>
      have h1 := List.find?_some hf
      have h2 := List.mem_of_find?_eq_some hf
      simp only [Bool.and_eq_true, beq_iff_eq] at h1
      exact ⟨e1, h2, h1.1, h1.2, by simp [find_file_by_id, hf]⟩
  · rintro hno ⟨e, hmem, hfile, hpre⟩
    have hf : entries.find? (fun e => e.isFile && fileStem e.name == file_id) = none := by
      rw [List.find?_eq_none]
      intro x hx hpx
      simp only [Bool.and_eq_true, beq_iff_eq] at hpx
      exact hno ⟨x, hx, hpx.1, hpx.2⟩
    cases hg : entries.find?
        (fun e => e.isFile && (fileStem e.name).startsWith file_id) with
    | none =>
      exfalso
      have := List.find?_eq_none.1 hg e hmem
      simp [hfile, hpre] at this
    | some e1 =>
      have h1 := List.find?_some hg
      have h2 := List.mem_of_find?_eq_some hg
      simp only [Bool.and_eq_true] at h1
      exact ⟨e1, h2, h1.1, h1.2, by simp [find_file_by_id, hf, hg]⟩
  · intro hno
    have hf : entries.find? (fun e => e.isFile && fileStem e.name == file_id) = none := by
      rw [List.find?_eq_none]
      intro x hx hpx
      simp only [Bool.and_eq_true, beq_iff_eq] at hpx
      exact hno ⟨x, hx, hpx.1, Or.inl hpx.2⟩
    have hg : entries.find?
        (fun e => e.isFile && (fileStem e.name).startsWith file_id) = none := by
      rw [List.find?_eq_none]
      intro x hx hpx
      simp only [Bool.and_eq_true] at hpx
      exact hno ⟨x, hx, hpx.1, Or.inr hpx.2⟩
    simp [find_file_by_id, hf, hg]

/-- Witness for C6: the directory holds the longer-prefix file
`a_1x.mp3` before the exact-match file `a_1.mp3`; the exact match wins. -/
theorem find_file_exact_priority_witness :
    ∃ e ∈ [(⟨"a_1x.mp3", true⟩ : DirEntry), ⟨"a_1.mp3", true⟩],
      e.isFile = true ∧ fileStem e.name = "a_1" ∧
      find_file_by_id [(⟨"a_1x.mp3", true⟩ : DirEntry), ⟨"a_1.mp3", true⟩] "a_1"
        = some e.name :=
  (find_file_exact_priority [(⟨"a_1x.mp3", true⟩ : DirEntry), ⟨"a_1.mp3", true⟩]
      "a_1").1
    ⟨(⟨"a_1.mp3", true⟩ : DirEntry), by decide, by decide, by decide⟩

lemma cleanup_mem_iff_of_ne (root : FsPath) (fs : List FsPath) (p q : FsPath)
    (h : q ≠ p) : q ∈ cleanup_temp_file root fs p ↔ q ∈ fs := by
  unfold cleanup_temp_file
  split_ifs <;> first | exact Iff.rfl | exact List.mem_erase_of_ne h

/-- C10. Cleanup confined to the Temp directory: the operation (total, all
errors swallowed) deletes nothing when the path is outside the Temp folder
(neither parent nor ancestor) or does not exist, and in every case touches
no path other than its argument. -/
theorem cleanup_confined (root : FsPath) (fs : List FsPath) (p : FsPath) :
    (¬((tempDir root <+: p ∧ tempDir root ≠ p) ∨ p.dropLast = tempDir root) →
      cleanup_temp_file root fs p = fs) ∧
    (p ∉ fs → cleanup_temp_file root fs p = fs) ∧
    (∀ q, q ≠ p → (q ∈ cleanup_temp_file root fs p ↔ q ∈ fs)) := by
  refine ⟨?_, ?_, ?_⟩
  · intro hout
    unfold cleanup_temp_file
    by_cases hmem : p ∈ fs
    · rw [if_pos hmem, if_neg hout]
    · rw [if_neg hmem]
  · intro hnm
    unfold cleanup_temp_file
    rw [if_neg hnm]
  · exact fun q hq => cleanup_mem_iff_of_ne root fs p q hq

/-- Witness for C10: a path outside `Temp` is left alone even though it
exists; a `Temp` path that does not exist is also left alone. -/
theorem cleanup_confined_witness :
    cleanup_temp_file ["r"] [["r", "Docs", "a.mp3"]] ["r", "Docs", "a.mp3"]
      = [["r", "Docs", "a.mp3"]] ∧
    cleanup_temp_file ["r"] [["r", "Docs", "a.mp3"]] ["r", "Temp", "b.mp3"]
      = [["r", "Docs", "a.mp3"]] :=
  ⟨(cleanup_confined ["r"] [["r", "Docs", "a.mp3"]] ["r", "Docs", "a.mp3"]).1
     (by decide),
   (cleanup_confined ["r"] [["r", "Docs", "a.mp3"]] ["r", "Temp", "b.mp3"]).2.1
     (by decide)⟩

/-! ### Proofs about preprocessing, the extraction pipeline and saving -/

lemma preprocess_pass_through (root : FsPath) (e : FfmpegEnv) (fs : List FsPath)
    (p : FsPath)
    (h : e.ffmpegAvailable = false ∨ e.runRaises = true ∨ e.outputExists = false) :
    preprocess_audio root e fs p = (p, fs) := by
  unfold preprocess_audio
  rcases h with h | h | h <;> split_ifs <;> simp_all

lemma preprocess_cases (root : FsPath) (e : FfmpegEnv) (fs : List FsPath) (p : FsPath) :
    preprocess_audio root e fs p = (p, fs) ∨
    preprocess_audio root e fs p
      = (preprocessOutput root e, List.insert (preprocessOutput root e) fs) := by
  unfold preprocess_audio
  split_ifs <;> simp

lemma temp_ne_subtitles (root : FsPath) (a b : String) :
    tempDir root ++ [a] ≠ SUBTITLES_FOLDER root ++ [b] := by
  intro h
  unfold tempDir SUBTITLES_FOLDER at h
  rw [List.append_assoc, List.append_assoc] at h
  have h2 := List.append_cancel_left h
  simp at h2

lemma save_subtitle_mem (root : FsPath) (w : Bool) (ts : String) (st : WhisperState)
    (fs : List FsPath) (orig : FsPath) (segs : List Segment) {q : FsPath} (h : q ∈ fs) :
    q ∈ (save_subtitle_file root w ts st fs orig segs).2 := by
  unfold save_subtitle_file
  split_ifs <;> simp [List.mem_insert_iff, h]

lemma save_subtitle_mem_rev (root : FsPath) (w : Bool) (ts : String) (st : WhisperState)
    (fs : List FsPath) (orig : FsPath) (segs : List Segment) {q : FsPath}
    (h : q ∈ (save_subtitle_file root w ts st fs orig segs).2) :
    q ∈ fs ∨ ∃ n, q = SUBTITLES_FOLDER root ++ [n] := by
  unfold save_subtitle_file at h
  split_ifs at h
  · rcases List.mem_insert_iff.1 h with h1 | h1
    · exact Or.inr ⟨_, h1⟩
    · exact Or.inl h1
  · exact Or.inl h

lemma count_insert_of_ne (x a : FsPath) (l : List FsPath) (h : x ≠ a) :
    (l.insert x).count a = l.count a := by
  by_cases hx : x ∈ l
  · rw [List.insert_of_mem hx]
  · rw [List.insert_of_not_mem hx]
    simp [List.count_cons, h]

lemma save_subtitle_count_ne (root : FsPath) (w : Bool) (ts : String) (st : WhisperState)
    (fs : List FsPath) (orig : FsPath) (segs : List Segment) (q : FsPath)
    (hq : ∀ n, q ≠ SUBTITLES_FOLDER root ++ [n]) :
    ((save_subtitle_file root w ts st fs orig segs).2).count q = fs.count q := by
  simp only [save_subtitle_file]
  split_ifs <;>
    first
      | rfl
      | (dsimp only; exact count_insert_of_ne _ _ _ (fun he => hq _ he.symm))

lemma not_mem_erase_self_of_count_le_one (a : FsPath) (l : List FsPath)
    (h : l.count a ≤ 1) : a ∉ l.erase a := by
  intro hmem
  have h1 := List.count_erase_self a l
  have h2 := List.count_pos_iff.2 hmem
  omega

/-- C4. Normalizer graceful degradation: when FFmpeg is unavailable, the run
raises, or the output file is missing, preprocessing returns the original
input path with the filesystem unchanged and never raises (the embedding is
total); the transcription pipeline then still succeeds on the raw file. -/
theorem normalizer_graceful (root : FsPath) (env : ExtractEnv) (st : WhisperState)
    (fs : List FsPath) (file_path : FsPath)
    (hff : env.ffmpeg.ffmpegAvailable = false ∨ env.ffmpeg.runRaises = true ∨
      env.ffmpeg.outputExists = false) :
    (∀ (p : FsPath) (fs0 : List FsPath), preprocess_audio root env.ffmpeg fs0 p = (p, fs0)) ∧
    (file_path ∈ fs → st.current_model.isSome = true →
      env.whisper.whisperAvailable = true → env.transcribeResult.isSome = true →
      (extract_subtitle root env st fs file_path none).1.success = true) := by
  constructor
  · intro p fs0
    exact preprocess_pass_through root env.ffmpeg fs0 p hff
  · intro hmem hsome hav htr
    obtain ⟨segs, hsegs⟩ := Option.isSome_iff_exists.1 htr
    have hne : ¬st.current_model = none := by
      intro h0; rw [h0] at hsome; simp at hsome
    have hsel : selectForExtract env.whisper st none = (none, st) := by
      unfold selectForExtract
      rw [if_neg hne]
    simp [extract_subtitle, hsel, hmem, hav, hsegs,
      preprocess_pass_through root env.ffmpeg fs file_path hff]

/-- Witness for C4: FFmpeg absent, everything else healthy; the pipeline
reports success. -/
theorem normalizer_graceful_witness :
    (preprocess_audio ["r"] ⟨false, false, false, "t"⟩ [] ["r", "Temp", "a.mp4"]
      = (["r", "Temp", "a.mp4"], [])) ∧
    (extract_subtitle ["r"]
      ⟨⟨true, fun _ => some 1, true⟩, ⟨false, false, false, "t"⟩,
        some [⟨0, 3, "A"⟩], "20240101_120000", true⟩
      ⟨some 0, "base", none, "vtt"⟩ [["r", "Temp", "a.mp4"]]
      ["r", "Temp", "a.mp4"] none).1.success = true :=
  ⟨(normalizer_graceful ["r"]
      ⟨⟨true, fun _ => some 1, true⟩, ⟨false, false, false, "t"⟩,
        some [⟨0, 3, "A"⟩], "20240101_120000", true⟩
      ⟨some 0, "base", none, "vtt"⟩ [["r", "Temp", "a.mp4"]]
      ["r", "Temp", "a.mp4"] (Or.inl rfl)).1 ["r", "Temp", "a.mp4"] [],
   (normalizer_graceful ["r"]
      ⟨⟨true, fun _ => some 1, true⟩, ⟨false, false, false, "t"⟩,
        some [⟨0, 3, "A"⟩], "20240101_120000", true⟩
      ⟨some 0, "base", none, "vtt"⟩ [["r", "Temp", "a.mp4"]]
      ["r", "Temp", "a.mp4"] (Or.inl rfl)).2
     (by simp) rfl rfl rfl⟩

lemma count_insert_self_of_not_mem (a : FsPath) (l : List FsPath) (h : a ∉ l) :
    (l.insert a).count a = 1 := by
  rw [List.insert_of_not_mem h, List.count_cons_self, List.count_eq_zero.2 h]

lemma preprocessOutput_dropLast (root : FsPath) (e : FfmpegEnv) :
    (preprocessOutput root e).dropLast = tempDir root := by
  simp [preprocessOutput]

lemma cleanup_removes (root : FsPath) (l : List FsPath) (p : FsPath)
    (hpar : p.dropLast = tempDir root) (hcount : l.count p ≤ 1) :
    p ∉ cleanup_temp_file root l p := by
  unfold cleanup_temp_file
  by_cases hmem : p ∈ l
  · rw [if_pos hmem, if_pos (Or.inr hpar)]
    exact not_mem_erase_self_of_count_le_one p l hcount
  · rw [if_neg hmem]; exact hmem

lemma scratch_ne_subtitles (root : FsPath) (e : FfmpegEnv) (n : String) :
    preprocessOutput root e ≠ SUBTITLES_FOLDER root ++ [n] :=
  temp_ne_subtitles root _ n

/-- C7. Guaranteed scratch cleanup with the original preserved: on every
exit path of `extract_subtitle` the original input's existence is
untouched, and the normalization scratch path of this call never remains
on disk afterwards (given it was not already there beforehand), except
when the "normalized" path is the original input itself, in which case
nothing is deleted. -/
theorem extract_scratch_cleanup (root : FsPath) (env : ExtractEnv) (st : WhisperState)
    (fs : List FsPath) (file_path : FsPath) (model_name : Option String) :
    (file_path ∈ (extract_subtitle root env st fs file_path model_name).2.2 ↔
      file_path ∈ fs) ∧
    (preprocessOutput root env.ffmpeg ∉ fs →
      preprocessOutput root env.ffmpeg ≠ file_path →
      preprocessOutput root env.ffmpeg ∉
        (extract_subtitle root env st fs file_path model_name).2.2) := by
  by_cases hmem : file_path ∈ fs
  · rcases hsel : selectForExtract env.whisper st model_name with ⟨o, st1⟩
    cases o with
    | some res =>
      have hred : (extract_subtitle root env st fs file_path model_name).2.2 = fs := by
        simp [extract_subtitle, hmem, hsel]
      rw [hred]
      exact ⟨Iff.rfl, fun hnin _ => hnin⟩
    | none =>
      by_cases hav : env.whisper.whisperAvailable = false
      · -- mock mode: no scratch is produced; only the subtitle file is written
        have hred : (extract_subtitle root env st fs file_path model_name).2.2
            = (save_subtitle_file root env.writeOk env.saveTimestamp st1 fs file_path
                mock_segments).2 := by
          simp [extract_subtitle, hmem, hsel, hav]
        rw [hred]
        refine ⟨⟨fun _ => hmem, fun _ => save_subtitle_mem _ _ _ _ _ _ _ hmem⟩, ?_⟩
        intro hnin _ hcon
        rcases save_subtitle_mem_rev _ _ _ _ _ _ _ hcon with h | ⟨n, hn⟩
        · exact hnin h
        · exact scratch_ne_subtitles root env.ffmpeg n hn
      · have hav' : env.whisper.whisperAvailable = true := by
          revert hav; cases env.whisper.whisperAvailable <;> simp
        rcases preprocess_cases root env.ffmpeg fs file_path with hpr | hpr
        · -- pass-through: nothing was produced, nothing is cleaned
          cases htr : env.transcribeResult with
          | none =>
            have hred : (extract_subtitle root env st fs file_path model_name).2.2
                = fs := by
              simp [extract_subtitle, hmem, hsel, hav', hpr, htr]
            rw [hred]
            exact ⟨Iff.rfl, fun hnin _ => hnin⟩
          | some segs =>
            have hred : (extract_subtitle root env st fs file_path model_name).2.2
                = (save_subtitle_file root env.writeOk env.saveTimestamp st1 fs
                    file_path segs).2 := by
              simp [extract_subtitle, hmem, hsel, hav', hpr, htr]
            rw [hred]
            refine ⟨⟨fun _ => hmem, fun _ => save_subtitle_mem _ _ _ _ _ _ _ hmem⟩, ?_⟩
            intro hnin _ hcon
            rcases save_subtitle_mem_rev _ _ _ _ _ _ _ hcon with h | ⟨n, hn⟩
            · exact hnin h
            · exact scratch_ne_subtitles root env.ffmpeg n hn
        · -- a scratch file was produced
          by_cases hne : preprocessOutput root env.ffmpeg = file_path
          · -- the scratch path *is* the original input: no cleanup happens
            cases htr : env.transcribeResult with
            | none =>
              have hred : (extract_subtitle root env st fs file_path model_name).2.2
                  = List.insert (preprocessOutput root env.ffmpeg) fs := by
                simp [extract_subtitle, hmem, hsel, hav', hpr, htr, hne]
              rw [hred]
              exact ⟨⟨fun _ => hmem, fun _ => List.mem_insert_of_mem hmem⟩,
                fun _ hne2 => absurd hne hne2⟩
            | some segs =>
              have hred : (extract_subtitle root env st fs file_path model_name).2.2
                  = (save_subtitle_file root env.writeOk env.saveTimestamp st1
                      (List.insert (preprocessOutput root env.ffmpeg) fs)
                      file_path segs).2 := by
                simp [extract_subtitle, hmem, hsel, hav', hpr, htr, hne]
              rw [hred]
              exact ⟨⟨fun _ => hmem,
                fun _ => save_subtitle_mem _ _ _ _ _ _ _ (List.mem_insert_of_mem hmem)⟩,
                fun _ hne2 => absurd hne hne2⟩
          · -- the scratch differs from the input: the finally block cleans it
            cases htr : env.transcribeResult with
            | none =>
              have hred : (extract_subtitle root env st fs file_path model_name).2.2
                  = cleanup_temp_file root
                      (List.insert (preprocessOutput root env.ffmpeg) fs)
                      (preprocessOutput root env.ffmpeg) := by
                simp [extract_subtitle, hmem, hsel, hav', hpr, htr, hne]
              rw [hred]
              constructor
              · rw [cleanup_mem_iff_of_ne root _ _ _ (fun he => hne he.symm)]
                exact ⟨fun _ => hmem, fun _ => List.mem_insert_of_mem hmem⟩
              · intro hnin _
                exact cleanup_removes root _ _ (preprocessOutput_dropLast root env.ffmpeg)
                  (le_of_eq (count_insert_self_of_not_mem _ fs hnin))
            | some segs =>
              have hred : (extract_subtitle root env st fs file_path model_name).2.2
                  = cleanup_temp_file root
                      (save_subtitle_file root env.writeOk env.saveTimestamp st1
                        (List.insert (preprocessOutput root env.ffmpeg) fs)
                        file_path segs).2
                      (preprocessOutput root env.ffmpeg) := by
                simp [extract_subtitle, hmem, hsel, hav', hpr, htr, hne]
              rw [hred]
              constructor
              · rw [cleanup_mem_iff_of_ne root _ _ _ (fun he => hne he.symm)]
                exact ⟨fun _ => hmem,
                  fun _ => save_subtitle_mem _ _ _ _ _ _ _ (List.mem_insert_of_mem hmem)⟩
              · intro hnin _
                apply cleanup_removes root _ _ (preprocessOutput_dropLast root env.ffmpeg)
                rw [save_subtitle_count_ne _ _ _ _ _ _ _ _
                  (fun n => scratch_ne_subtitles root env.ffmpeg n)]
                exact le_of_eq (count_insert_self_of_not_mem _ fs hnin)
  · have hred : (extract_subtitle root env st fs file_path model_name).2.2 = fs := by
      simp [extract_subtitle, hmem]
    rw [hred]
    exact ⟨Iff.rfl, fun hnin _ => hnin⟩

/-- Witness for C7: a healthy run that produces a scratch file; afterwards
the original is still present and the scratch is gone. -/
theorem extract_scratch_cleanup_witness :
    (["r", "Temp", "a.mp4"] ∈
      (extract_subtitle ["r"]
        ⟨⟨true, fun _ => some 1, true⟩, ⟨true, false, true, "t"⟩,
          some [⟨0, 3, "A"⟩], "20240101_120000", true⟩
        ⟨some 0, "base", none, "vtt"⟩ [["r", "Temp", "a.mp4"]]
        ["r", "Temp", "a.mp4"] none).2.2 ↔
      ["r", "Temp", "a.mp4"] ∈ [[("r" : String), "Temp", "a.mp4"]]) ∧
    preprocessOutput ["r"] ⟨true, false, true, "t"⟩ ∉
      (extract_subtitle ["r"]
        ⟨⟨true, fun _ => some 1, true⟩, ⟨true, false, true, "t"⟩,
          some [⟨0, 3, "A"⟩], "20240101_120000", true⟩
        ⟨some 0, "base", none, "vtt"⟩ [["r", "Temp", "a.mp4"]]
        ["r", "Temp", "a.mp4"] none).2.2 :=
  ⟨(extract_scratch_cleanup ["r"]
      ⟨⟨true, fun _ => some 1, true⟩, ⟨true, false, true, "t"⟩,
        some [⟨0, 3, "A"⟩], "20240101_120000", true⟩
      ⟨some 0, "base", none, "vtt"⟩ [["r", "Temp", "a.mp4"]]
      ["r", "Temp", "a.mp4"] none).1,
   (extract_scratch_cleanup ["r"]
      ⟨⟨true, fun _ => some 1, true⟩, ⟨true, false, true, "t"⟩,
        some [⟨0, 3, "A"⟩], "20240101_120000", true⟩
      ⟨some 0, "base", none, "vtt"⟩ [["r", "Temp", "a.mp4"]]
      ["r", "Temp", "a.mp4"] none).2 (by decide) (by decide)⟩

/-- Counterexample to C9 as stated: two distinct transcription calls on the
same source file (they recognize different segments, so they are different
calls) whose save-time timestamps fall within the same second write the
same subtitle filename `talk_20240101_120000.vtt`, so the second overwrites
the first. -/
theorem subtitle_filename_counterexample :
    (extract_subtitle ["r"]
      ⟨⟨true, fun _ => some 1, true⟩, ⟨false, false, false, "t"⟩,
        some [⟨0, 3, "A"⟩], "20240101_120000", true⟩
      ⟨some 0, "base", none, "vtt"⟩ [["r", "Temp", "talk.mp4"]]
      ["r", "Temp", "talk.mp4"] none).1.subtitle_file
      = (extract_subtitle ["r"]
      ⟨⟨true, fun _ => some 1, true⟩, ⟨false, false, false, "t"⟩,
        some [⟨0, 3, "B"⟩], "20240101_120000", true⟩
      ⟨some 0, "base", none, "vtt"⟩ [["r", "Temp", "talk.mp4"]]
      ["r", "Temp", "talk.mp4"] none).1.subtitle_file ∧
    (some [Segment.mk 0 3 "A"] : Option (List Segment)) ≠ some [Segment.mk 0 3 "B"] ∧
    (extract_subtitle ["r"]
      ⟨⟨true, fun _ => some 1, true⟩, ⟨false, false, false, "t"⟩,
        some [⟨0, 3, "A"⟩], "20240101_120000", true⟩
      ⟨some 0, "base", none, "vtt"⟩ [["r", "Temp", "talk.mp4"]]
      ["r", "Temp", "talk.mp4"] none).1.subtitle_file
      = "talk_20240101_120000.vtt" := by
  refine ⟨by decide, by decide, by decide⟩

lemma subtitleFilename_inj_ts (stem fmt t1 t2 : String)
    (h : subtitleFilename stem t1 fmt = subtitleFilename stem t2 fmt) : t1 = t2 := by
  unfold subtitleFilename at h
  have hd := congrArg String.data h
  have hu : ("_" : String).data = ['_'] := rfl
  have hdot : ("." : String).data = ['.'] := rfl
  simp only [String.data_append, hu, hdot, List.append_assoc, List.singleton_append] at hd
  have h2 := List.append_cancel_left hd
  simp only [List.cons.injEq, true_and] at h2
  have h3 := List.append_cancel_right h2
  cases t1; cases t2
  injection h3 with h4 h5
  exact congrArg String.mk h5

/-- C9 (amended). Subtitle documents written by two transcription calls on
the same source carry distinct filenames whenever their save-time capture
timestamps (second granularity) differ; calls saving within the same
second produce the same filename. -/
theorem subtitle_filename_unique (root : FsPath) (st : WhisperState) (t1 t2 : String)
    (fs1 fs2 : List FsPath) (orig : FsPath) (segs1 segs2 : List Segment)
    (h : t1 ≠ t2) :
    (save_subtitle_file root true t1 st fs1 orig segs1).1
      ≠ (save_subtitle_file root true t2 st fs2 orig segs2).1 := by
  simp only [save_subtitle_file, if_true]
  intro heq
  exact h (subtitleFilename_inj_ts _ _ t1 t2 heq)

/-- Witness for C9 (amended): timestamps one second apart give different
filenames. -/
theorem subtitle_filename_unique_witness :
    "20240101_120000" ≠ "20240101_120001" ∧
    (save_subtitle_file ["r"] true ("20240101_120000") ⟨none, "base", none, "vtt"⟩ []
      ["r", "Temp", "talk.mp4"] []).1
      ≠ (save_subtitle_file ["r"] true ("20240101_120001") ⟨none, "base", none, "vtt"⟩ []
      ["r", "Temp", "talk.mp4"] []).1 :=
  ⟨by decide,
   subtitle_filename_unique ["r"] ⟨none, "base", none, "vtt"⟩ "20240101_120000"
     "20240101_120001" [] [] ["r", "Temp", "talk.mp4"] [] [] (by decide)⟩

end AiNote
